import Mathlib

/-
Verification development for the `genesis-tool` crate of
`gravity_chain_core_contracts`: a shallow embedding of the genesis
generation and verification pipeline (src/utils.rs, src/execute.rs,
src/genesis.rs, src/verify.rs), together with theorems settling the
specification claims about it.

Modelling conventions:
- `U256` values are `Nat` (stake amounts and balances in this tool are far
  below 2^256; where an external parser rejects overflow we check `< 2^256`
  explicitly).
- Rust `HashMap`s are association lists with at most one entry per key
  (`Smap`); `mset` is `HashMap::insert`, `mget` is lookup, `mdel` is
  `HashMap::remove`.
- Panics (`.expect`, `panic!`-style aborts) are modelled by `Except String`.
- The external collaborators (the revm virtual machine, the alloy ABI
  encoder/decoder, the filesystem) are parameters of the embedding, as the
  spec treats them as external interfaces.
-/

set_option autoImplicit false

namespace GenesisTool

/-! ## Association-list maps (model of Rust `HashMap`) -/

abbrev Addr := Nat

abbrev Bytes := List Nat

abbrev Smap (V : Type) := List (Nat × V)

/-- Lookup (model of `HashMap::get`). -/
def mget {V : Type} : Smap V → Nat → Option V
  | [], _ => none
  | (k, v) :: t, a => if k = a then some v else mget t a

/-- Insert-or-replace (model of `HashMap::insert`). -/
def mset {V : Type} : Smap V → Nat → V → Smap V
  | [], k, v => [(k, v)]
  | (k', v') :: t, k, v => if k' = k then (k, v) :: t else (k', v') :: mset t k v

/-- Key removal (model of `HashMap::remove`). -/
def mdel {V : Type} (m : Smap V) (k : Nat) : Smap V :=
  m.filter (fun p => p.1 != k)

/-- The key list of a map. -/
def mkeys {V : Type} (m : Smap V) : List Nat :=
  m.map Prod.fst

/-- Insert a batch of entries (model of `HashMap::extend`). -/
def mext {V : Type} (m : Smap V) (l : List (Nat × V)) : Smap V :=
  l.foldl (fun acc p => mset acc p.1 p.2) m

/-- A map is well-formed when no key occurs twice, the `HashMap` invariant. -/
abbrev NodupKeys {V : Type} (m : Smap V) : Prop :=
  (mkeys m).Nodup

/-! ## Character-level string helpers

The Rust code manipulates strings through `str::trim`, `strip_prefix("0x")`,
`to_lowercase`, and hex encoding/decoding.  These are re-implemented here
over `String.data` so that every definition reduces in the kernel. -/

/-- Whitespace as trimmed by `str::trim` (ASCII fragment). -/
def isWsChar (c : Char) : Bool :=
  c = ' ' || c = '\t' || c = '\n' || c = '\r'

/-- Model of `str::trim`. -/
def strTrim (s : String) : String :=
  String.mk (((s.data.dropWhile isWsChar).reverse.dropWhile isWsChar).reverse)

/-- Model of stripping an optional leading `0x` (as in `strip_prefix("0x")`
followed by `unwrap_or` of the original string). -/
def strip0x (s : String) : String :=
  match s.data with
  | '0' :: 'x' :: rest => String.mk rest
  | _ => s

/-- Model of `str::to_lowercase` (ASCII fragment, which covers the
hex-digit and address strings this tool compares). -/
def strLower (s : String) : String :=
  String.mk (s.data.map Char.toLower)

/-- Value of one hex digit (`0-9a-fA-F`). -/
def hexDigitVal (c : Char) : Option Nat :=
  if '0' ≤ c ∧ c ≤ '9' then some (c.toNat - '0'.toNat)
  else if 'a' ≤ c ∧ c ≤ 'f' then some (c.toNat - 'a'.toNat + 10)
  else if 'A' ≤ c ∧ c ≤ 'F' then some (c.toNat - 'A'.toNat + 10)
  else none

/-- Value of one decimal digit. -/
def decDigitVal (c : Char) : Option Nat :=
  if '0' ≤ c ∧ c ≤ '9' then some (c.toNat - '0'.toNat) else none

/-- Read a non-empty digit string in the given base; `none` on the empty
string or any non-digit character (the behaviour of the Rust numeric
parsers before their overflow check). -/
def digitsVal (dval : Char → Option Nat) (base : Nat) (cs : List Char) : Option Nat :=
  if cs.isEmpty then none
  else
    cs.foldl
      (fun acc c =>
        match acc, dval c with
        | some a, some d => some (base * a + d)
        | _, _ => none)
      (some 0)

/-- Decode a list of hex characters two at a time; `none` on odd length or
an invalid digit (the error cases of `hex::decode`). -/
def hexPairsDecode : List Char → Option Bytes
  | [] => some []
  | [_] => none
  | c1 :: c2 :: rest =>
    match hexDigitVal c1, hexDigitVal c2, hexPairsDecode rest with
    | some h, some l, some tail => some ((16 * h + l) :: tail)
    | _, _, _ => none

/-- Model of alloy `hex::decode`: an optional `0x` prefix is accepted, then
pairs of hex digits. -/
def hexDecode (s : String) : Option Bytes :=
  hexPairsDecode (strip0x s).data

/-- Lowercase hex digit for a value `< 16`. -/
def hexChar (n : Nat) : Char :=
  if n < 10 then Char.ofNat ('0'.toNat + n)
  else Char.ofNat ('a'.toNat + (n - 10))

/-- Two lowercase hex digits of one byte. -/
def byteToHex (b : Nat) : String :=
  String.mk [hexChar (b / 16 % 16), hexChar (b % 16)]

/-- Model of `hex::encode` (lowercase, no prefix). -/
def hexEncode (bs : Bytes) : String :=
  String.join (bs.map byteToHex)

/-- Big-endian byte list of a fixed-width unsigned integer. -/
def natToBytesBE (width : Nat) (n : Nat) : Bytes :=
  (List.range width).map (fun i => n / 256 ^ (width - 1 - i) % 256)

/-! ## System addresses and the contract registry (src/utils.rs)

Addresses are 160-bit identifiers modelled as `Nat`; the constants below
are the numeric values of the `address!` literals. -/

def DEAD_ADDRESS : Addr := 0xdEaD

/-- VM/runtime system caller address (the privileged funding account). -/
def SYSTEM_CALLER : Addr := 0x1625F0000

/-- Genesis initialization contract. -/
def GENESIS_ADDR : Addr := 0x1625F0001

def TIMESTAMP_ADDR : Addr := 0x1625F1000

def STAKE_CONFIG_ADDR : Addr := 0x1625F1001

def VALIDATOR_CONFIG_ADDR : Addr := 0x1625F1002

def RANDOMNESS_CONFIG_ADDR : Addr := 0x1625F1003

def GOVERNANCE_CONFIG_ADDR : Addr := 0x1625F1004

def EPOCH_CONFIG_ADDR : Addr := 0x1625F1005

def VERSION_CONFIG_ADDR : Addr := 0x1625F1006

def CONSENSUS_CONFIG_ADDR : Addr := 0x1625F1007

def EXECUTION_CONFIG_ADDR : Addr := 0x1625F1008

def ORACLE_TASK_CONFIG_ADDR : Addr := 0x1625F1009

def ON_DEMAND_ORACLE_TASK_CONFIG_ADDR : Addr := 0x1625F100A

def STAKING_ADDR : Addr := 0x1625F2000

/-- Validator set management contract. -/
def VALIDATOR_MANAGER_ADDR : Addr := 0x1625F2001

def DKG_ADDR : Addr := 0x1625F2002

def RECONFIGURATION_ADDR : Addr := 0x1625F2003

def BLOCK_ADDR : Addr := 0x1625F2004

def GOVERNANCE_ADDR : Addr := 0x1625F3000

def NATIVE_ORACLE_ADDR : Addr := 0x1625F4000

def JWK_MANAGER_ADDR : Addr := 0x1625F4001

def ORACLE_REQUEST_QUEUE_ADDR : Addr := 0x1625F4002

def NATIVE_MINT_PRECOMPILE_ADDR : Addr := 0x1625F5000

/-- The fixed registry of system contracts deployed at genesis
(`CONTRACTS` in src/utils.rs). -/
def CONTRACTS : List (String × Addr) :=
  [("Genesis", GENESIS_ADDR),
   ("Reconfiguration", RECONFIGURATION_ADDR),
   ("StakingConfig", STAKE_CONFIG_ADDR),
   ("Staking", STAKING_ADDR),
   ("ValidatorManagement", VALIDATOR_MANAGER_ADDR),
   ("Governance", GOVERNANCE_ADDR),
   ("ValidatorConfig", VALIDATOR_CONFIG_ADDR),
   ("Blocker", BLOCK_ADDR),
   ("Timestamp", TIMESTAMP_ADDR),
   ("JWKManager", JWK_MANAGER_ADDR),
   ("NativeOracle", NATIVE_ORACLE_ADDR),
   ("RandomnessConfig", RANDOMNESS_CONFIG_ADDR),
   ("DKG", DKG_ADDR),
   ("GovernanceConfig", GOVERNANCE_CONFIG_ADDR),
   ("EpochConfig", EPOCH_CONFIG_ADDR),
   ("VersionConfig", VERSION_CONFIG_ADDR),
   ("ConsensusConfig", CONSENSUS_CONFIG_ADDR),
   ("ExecutionConfig", EXECUTION_CONFIG_ADDR),
   ("OracleTaskConfig", ORACLE_TASK_CONFIG_ADDR),
   ("OnDemandOracleTaskConfig", ON_DEMAND_ORACLE_TASK_CONFIG_ADDR)]

/-! ## Core data model (revm types used by the tool)

`AccountInfo` keeps the fields the tool reads and writes; the derived
`code_hash` of revm is omitted (it is a function of `code`). -/

structure AccountInfo where
  balance : Nat
  nonce : Nat
  code : Option Bytes
  deriving DecidableEq

/-- Model of `AccountInfo::default()`: zero balance, zero nonce, no code. -/
def AccountInfo.default : AccountInfo :=
  { balance := 0, nonce := 0, code := none }

/-- A `PlainAccount`: account info plus a storage map (slot value by slot
key).  Also used for the accounts of the in-memory database. -/
structure PlainAccount where
  info : AccountInfo
  storage : Smap Nat
  deriving DecidableEq

/-- The in-memory database (`InMemoryDB` accounts table). -/
abbrev DB := Smap PlainAccount

/-- Model of `CacheDB::insert_account_info`: set the info for an address, creating
the account (with empty storage) when absent and keeping existing storage
otherwise. -/
def insert_account_info (db : DB) (addr : Addr) (info : AccountInfo) : DB :=
  match mget db addr with
  | some acct => mset db addr { acct with info := info }
  | none => mset db addr { info := info, storage := [] }

/-- Model of `CacheDB::insert_account_storage` on an in-memory database: write one
storage slot, creating a default account when absent (with `EmptyDB`
underneath this cannot fail). -/
def insert_account_storage (db : DB) (addr : Addr) (key value : Nat) : DB :=
  match mget db addr with
  | some acct => mset db addr { acct with storage := mset acct.storage key value }
  | none => mset db addr { info := AccountInfo.default, storage := [(key, value)] }

/-- One entry of a `BundleState` (the state delta): the post-execution
account info (`none` when the account was destroyed or cleared) and the
changed storage slots with their present values.  The `original_info` and
status flags tracked by revm are not read by this tool and are omitted. -/
structure BundleAccount where
  info : Option AccountInfo
  storage : Smap Nat
  deriving DecidableEq

/-- The consolidated state delta of a batch (`BundleState.state`). -/
abbrev Bundle := Smap BundleAccount

/-- Transaction target (`TxKind`). -/
inductive TxKind where
  | Create
  | Call (addr : Addr)
  deriving DecidableEq

/-- The fields of `TxEnv` that the tool sets; the remaining revm fields
keep their defaults and are never read back. -/
structure TxEnv where
  caller : Addr
  gas_limit : Nat
  gas_price : Nat
  transact_to : TxKind
  value : Nat
  data : Bytes
  deriving DecidableEq

/-- Value of `u64::MAX`. -/
def U64_MAX : Nat := 2 ^ 64 - 1

/-- Model of `new_system_call_txn` (src/utils.rs). -/
def new_system_call_txn (contract : Addr) (input : Bytes) : TxEnv :=
  { caller := SYSTEM_CALLER, gas_limit := U64_MAX, gas_price := 0,
    transact_to := TxKind.Call contract, value := 0, data := input }

/-- Model of `new_system_call_txn_with_value` (src/utils.rs). -/
def new_system_call_txn_with_value (contract : Addr) (input : Bytes) (value : Nat) : TxEnv :=
  { caller := SYSTEM_CALLER, gas_limit := U64_MAX, gas_price := 0,
    transact_to := TxKind.Call contract, value := value, data := input }

/-- The decoded form of one `Log(string message, uint256 value)` event.  A
raw execution log is modelled by the result of `Log::decode_log` on it:
`some` when the (external alloy) decoder accepts it, `none` otherwise. -/
structure LogRecord where
  message : String
  value : Nat
  deriving DecidableEq

/-- Model of `ExecutionResult`: for `Success` the output bytes of `Output::Call` or
`Output::Create` are kept directly; `Halt` keeps the debug rendering of
its reason. -/
inductive ExecutionResult where
  | Success (gas_used : Nat) (output : Bytes) (logs : List (Option LogRecord))
  | Revert (gas_used : Nat) (output : Bytes)
  | Halt (reason : String) (gas_used : Nat)
  deriving DecidableEq

/-- Model of `ExecutionResult::is_success`. -/
def ExecutionResult.is_success : ExecutionResult → Bool
  | .Success _ _ _ => true
  | _ => false

/-- The execution environment fields the tool configures (`Env`):
`cfg.chain_id`, `tx.gas_limit`, and `block.timestamp`. -/
structure Env where
  chain_id : Nat
  tx_gas_limit : Nat
  timestamp : Nat
  deriving DecidableEq

/-- Model of `prepare_env` (src/execute.rs): `now` is the value of
`SystemTime::now().duration_since(UNIX_EPOCH).as_secs()` — the wall clock
at the moment of the call, made an explicit parameter of the embedding. -/
def prepare_env (chain_id : Nat) (now : Nat) : Env :=
  { chain_id := chain_id, tx_gas_limit := 30000000, timestamp := now }

/-- Protocol version tag (`SpecId`); only `LATEST` is used. -/
inductive SpecId where
  | LATEST
  deriving DecidableEq

/-! ## The external virtual machine

The spec excludes the instruction semantics of the EVM: `evm.transact()`,
`DatabaseCommit::commit`, and the transition consolidation of
`merge_transitions`/`take_bundle` are external operations.  They are
bundled into a `VM` record over an arbitrary per-transaction change type
`δ`; every theorem about the engine quantifies over this record. -/

structure VM (δ : Type) where
  /-- Model of `evm.transact()`: outcome and per-transaction state changes, or an
  `EVMError`. -/
  transact : Env → DB → TxEnv → Except String (ExecutionResult × δ)
  /-- Model of `evm.db_mut().commit(...)`: fold one transaction's changes into the
  working view. -/
  commit : DB → δ → DB
  /-- Model of `merge_transitions(BundleRetention::Reverts)` followed by
  `take_bundle()`: consolidate the recorded transitions (in commit order,
  relative to the original view) into one `BundleState`. -/
  consolidate : DB → List δ → Bundle

/-- Model of `StateBuilder::with_bundle_prestate`: layer a pre-existing bundle over
the backing database, account by account (a destroyed account reads as
absent). -/
def apply_bundle_prestate (db : DB) (b : Bundle) : DB :=
  b.foldl
    (fun acc p =>
      match p.2.info with
      | some info => mset acc p.1 { info := info, storage := p.2.storage }
      | none => mdel acc p.1)
    db

/-- The transaction loop of `execute_revm_sequential`: execute each
transaction in list order against the current working view, committing its
changes before the next transaction runs; returns the outcome list, the
recorded transitions in order, and the final working view. -/
def run_txs {δ : Type} (vm : VM δ) (env : Env) :
    DB → List TxEnv → Except String (List ExecutionResult × List δ × DB)
  | db, [] => Except.ok ([], [], db)
  | db, tx :: rest => do
    let step ← vm.transact env db tx
    let db1 := vm.commit db step.2
    let tail ← run_txs vm env db1 rest
    Except.ok (step.1 :: tail.1, step.2 :: tail.2.1, tail.2.2)

/-- Model of `execute_revm_sequential` (src/utils.rs): build the working view
(layering the optional pre-existing bundle), run the transactions strictly
in list order with a commit after each, then consolidate one bundle.  The
final working view is also returned so that theorems can speak about the
resulting world state. -/
def execute_revm_sequential {δ : Type} (vm : VM δ) (_spec_id : SpecId) (env : Env)
    (db : DB) (txs : List TxEnv) (pre_bundle : Option Bundle) :
    Except String (List ExecutionResult × Bundle × DB) := do
  let db0 :=
    match pre_bundle with
    | some b => apply_bundle_prestate db b
    | none => db
  let r ← run_txs vm env db0 txs
  Except.ok (r.1, vm.consolidate db0 r.2.1, r.2.2)

/-! ## Outcome classification (`analyze_txn_result`, src/utils.rs) -/

/-- The selector tag table of `analyze_txn_result`. -/
def selectorTag (selector : Bytes) : String :=
  if selector = [0x49, 0xfd, 0x36, 0xf2] then (" (OnlySystemCaller)")
  else if selector = [0x97, 0xb8, 0x83, 0x54] then (" (UnknownParam)")
  else if selector = [0x0a, 0x5a, 0x60, 0x41] then (" (InvalidValue)")
  else if selector = [0x11, 0x6c, 0x64, 0xa8] then (" (OnlyCoinbase)")
  else if selector = [0x83, 0xf1, 0xb1, 0xd3] then (" (OnlyZeroGasPrice)")
  else if selector = [0xf2, 0x2c, 0x43, 0x90] then (" (OnlySystemContract)")
  else if selector = [0x08, 0xc3, 0x79, 0xa0] then (" (Error(string))")
  else if selector = [0x4e, 0x48, 0x7b, 0x71] then (" (Panic(uint256))")
  else (" (Unknown error selector)")

/-- Model of `analyze_txn_result` (src/utils.rs).  The `{:?}` rendering of a decoded
log message keeps the Rust `String` debug quotes; the debug rendering of a
`U256` log value is modelled by its decimal representation. -/
def analyze_txn_result (result : ExecutionResult) : String :=
  match result with
  | .Revert gas_used output =>
    let reason := "Revert with gas used: " ++ toString gas_used
    let reason :=
      if 4 ≤ output.length then
        reason ++ "\nFunction selector: 0x" ++ hexEncode (output.take 4)
          ++ selectorTag (output.take 4)
      else reason
    if 4 < output.length then
      reason ++ "\nAdditional data: 0x" ++ hexEncode (output.drop 4)
    else reason
  | .Success gas_used _ logs =>
    let log_msg :=
      logs.foldl
        (fun acc l =>
          match l with
          | some parsed =>
            acc ++ "txn event Log: \"" ++ parsed.message ++ "\", "
              ++ toString parsed.value ++ "."
          | none => acc)
        ""
    "Success with gas used: " ++ toString gas_used ++ ", " ++ log_msg
  | .Halt reason gas_used =>
    "Halt: " ++ reason ++ " with gas used: " ++ toString gas_used

/-! ## Genesis configuration and stake calculation (src/genesis.rs)

Of the configuration only the chain id and the validators' stake amounts
are read by the core pipeline modelled here; every other field is consumed
solely by the external ABI encoder that builds the `initialize` payload,
which the pipeline treats as an opaque byte string. -/

structure InitialValidator where
  stake_amount : String
  deriving DecidableEq

structure GenesisConfig where
  chain_id : Nat
  validators : List InitialValidator
  deriving DecidableEq

/-- The numeric core of alloy `U256::from_str`: decimal, or hexadecimal
after a `0x` prefix, rejecting the empty string, stray characters and
values `≥ 2^256`.  (The external parser also accepts `0b`/`0o` prefixes
and `_` separators; those inputs are not used by this tool.) -/
def parse_u256_core (s : String) : Option Nat :=
  let n? :=
    match s.data with
    | '0' :: 'x' :: rest => digitsVal hexDigitVal 16 rest
    | cs => digitsVal decDigitVal 10 cs
  match n? with
  | some n => if n < 2 ^ 256 then some n else none
  | none => none

/-- Model of `parse_u256` (src/genesis.rs): panics on an invalid string. -/
def parse_u256 (s : String) : Except String Nat :=
  match parse_u256_core s with
  | some n => Except.ok n
  | none => Except.error ("Invalid U256 string: " ++ s)

/-- Model of `calculate_total_stake` (src/genesis.rs): the sum of all configured
validators' stake amounts. -/
def calculate_total_stake (config : GenesisConfig) : Except String Nat :=
  config.validators.foldlM
    (fun acc v => do
      let stake ← parse_u256 v.stake_amount
      Except.ok (acc + stake))
    0

/-- Model of `call_genesis_initialize` (src/genesis.rs): build the single
`Genesis.initialize` transaction.  `encoder` is the external ABI encoder
(`convert_config_to_sol` + `abi_encode`); the payload it returns is never
inspected. -/
def call_genesis_init_txn (encoder : GenesisConfig → Bytes) (genesis_address : Addr)
    (config : GenesisConfig) : Except String TxEnv := do
  let total_stake ← calculate_total_stake config
  Except.ok (new_system_call_txn_with_value genesis_address (encoder config) total_stake)

/-- Model of `build_genesis_transactions` (src/execute.rs): the batch is the single
`Genesis.initialize` call. -/
def build_genesis_transactions (encoder : GenesisConfig → Bytes)
    (config : GenesisConfig) : Except String (List TxEnv) := do
  let tx ← call_genesis_init_txn encoder GENESIS_ADDR config
  Except.ok [tx]

/-! ## Contract seeding (src/execute.rs) -/

/-- The filesystem as seen through `std::fs::read_to_string`: contents per
path, `none` when the file is missing or unreadable. -/
abbrev Fs := String → Option String

/-- Model of `read_hex_from_file` (src/utils.rs): panics when the file cannot be
read. -/
def read_hex_from_file (fs : Fs) (path : String) : Except String String :=
  match fs path with
  | some s => Except.ok s
  | none => Except.error ("Failed to open " ++ path)

/-- Model of `extract_runtime_bytecode` (src/execute.rs): decode the (trimmed) hex
text, and on ANY decode failure fall back to the empty byte string
(`unwrap_or_default`).  The constructor-pattern heuristic only logs a
warning; both branches return the decoded bytes unchanged. -/
def extract_runtime_bytecode (constructor_bytecode : String) : Bytes :=
  let bytes := (hexDecode (strTrim constructor_bytecode)).getD []
  if 100 < bytes.length ∧ (bytes.head? = some 0x60 ∨ bytes.head? = some 0x61) then
    bytes
  else
    bytes

/-- The per-contract step of `deploy_bsc_style`: read the contract's hex
file, extract its runtime bytecode, and install the account (the Genesis
contract also receives the pooled stake plus a 1,000,000 * 10^18 buffer). -/
def deploy_step (fs : Fs) (byte_code_dir : String) (total_stake : Nat)
    (db : DB) (entry : String × Addr) : Except String DB := do
  let hex_path := byte_code_dir ++ "/" ++ entry.1 ++ ".hex"
  let bytecode_hex ← read_hex_from_file fs hex_path
  let runtime_bytecode := extract_runtime_bytecode bytecode_hex
  let balance := if entry.1 = "Genesis" then total_stake + 1000000 * 10 ^ 18 else 0
  Except.ok (insert_account_info db entry.2
    { balance := balance, nonce := 0, code := some runtime_bytecode })

/-- Model of `deploy_bsc_style` (src/execute.rs): seed the privileged funding
account (balance = total stake + 10,000,000 * 10^18, nonce 1) and then one
account per registry entry. -/
def deploy_bsc_style (fs : Fs) (byte_code_dir : String) (total_stake : Nat) :
    Except String DB := do
  let system_caller_balance := total_stake + 10000000 * 10 ^ 18
  let db := insert_account_info []
    SYSTEM_CALLER
    { balance := system_caller_balance, nonce := 1, code := none }
  CONTRACTS.foldlM (deploy_step fs byte_code_dir total_stake) db

/-! ## Snapshot merge and artifact derivation (src/execute.rs) -/

/-- The seeding loop of `genesis_generate` (lines 183-203): one snapshot
entry per registry contract, bytecode installed, default info, empty
storage. -/
def seed_step (fs : Fs) (byte_code_dir : String)
    (gs : Smap PlainAccount) (entry : String × Addr) : Except String (Smap PlainAccount) := do
  let hex_path := byte_code_dir ++ "/" ++ entry.1 ++ ".hex"
  let bytecode_hex ← read_hex_from_file fs hex_path
  let runtime_bytecode := extract_runtime_bytecode bytecode_hex
  Except.ok (mset gs entry.2
    { info := { balance := 0, nonce := 0, code := some runtime_bytecode },
      storage := [] })

def seed_genesis_state (fs : Fs) (byte_code_dir : String) :
    Except String (Smap PlainAccount) :=
  CONTRACTS.foldlM (seed_step fs byte_code_dir) []

/-- One step of the merge loop of `genesis_generate` (lines 219-236): a
delta entry whose post-execution info is absent is skipped; otherwise the
storage is merged (delta slots override or extend seeded slots) and the
account info is replaced wholesale; an address not yet seeded is inserted
as a new entry. -/
def merge_step (gs : Smap PlainAccount) (p : Nat × BundleAccount) : Smap PlainAccount :=
  match p.2.info with
  | some info =>
    match mget gs p.1 with
    | some existing => mset gs p.1 { info := info, storage := mext existing.storage p.2.storage }
    | none => mset gs p.1 { info := info, storage := p.2.storage }
  | none => gs

/-- The merge loop of `genesis_generate` over all delta entries. -/
def merge_bundle_into_genesis (gs : Smap PlainAccount) (bundle : Bundle) :
    Smap PlainAccount :=
  bundle.foldl merge_step gs

/-- Extract the code of a snapshot entry (`account.info.code`). -/
def codeOf (acct : PlainAccount) : Option Bytes :=
  acct.info.code

/-- The bytecode-map derivation of `genesis_generate` (lines 245-254):
keep exactly the snapshot entries that carry code, mapped to their code. -/
def derive_contracts_json (gs : Smap PlainAccount) : Smap Bytes :=
  gs.filterMap (fun p => (codeOf p.2).map (fun code => (p.1, code)))

/-- The three artifacts written by a successful generation run:
`bundle_state.json` (the raw state delta, after the privileged funding
account was removed), `genesis_accounts.json` (the merged snapshot) and
`genesis_contracts.json` (the bytecode-only map).  In the embedding they
exist exactly when the run returns `ok` — every failure aborts before the
corresponding write. -/
structure GenArtifacts where
  bundle_state : Bundle
  genesis_accounts : Smap PlainAccount
  genesis_contracts : Smap Bytes
  deriving DecidableEq

/-- Model of `genesis_generate` (src/execute.rs): seed, execute the single
`initialize` transaction, abort on any non-`Success` outcome, remove the
privileged funding account from the delta, merge, and derive the
artifacts.  Returns the `(db, bundle_state)` pair of the source together
with the written artifacts. -/
def genesis_generate {δ : Type} (vm : VM δ) (fs : Fs) (encoder : GenesisConfig → Bytes)
    (now : Nat) (byte_code_dir : String) (config : GenesisConfig) :
    Except String ((DB × Bundle) × GenArtifacts) := do
  let total_stake ← calculate_total_stake config
  let db ← deploy_bsc_style fs byte_code_dir total_stake
  let env := prepare_env config.chain_id now
  let txs ← build_genesis_transactions encoder config
  let r ← execute_revm_sequential vm SpecId.LATEST env db txs none
  let result := r.1
  let bundle_state := r.2.1
  let ret := (db, bundle_state)
  match result.findIdx? (fun res => !res.is_success) with
  | some i => Except.error ("Genesis transaction (" ++ toString (i + 1) ++ ") failed")
  | none => do
    let genesis_state ← seed_genesis_state fs byte_code_dir
    let bundle_state := mdel bundle_state SYSTEM_CALLER
    let genesis_state := merge_bundle_into_genesis genesis_state bundle_state
    let contracts_json := derive_contracts_json genesis_state
    Except.ok (ret,
      { bundle_state := bundle_state,
        genesis_accounts := genesis_state,
        genesis_contracts := contracts_json })

/-! ## Genesis verification (src/verify.rs) -/

/-- One `alloc` entry of the persisted genesis snapshot. -/
structure AllocEntry where
  balance : Option String
  nonce : Option Nat
  code : Option String
  storage : Option (List (String × String))
  deriving DecidableEq

/-- The parsed `genesis.json` (`alloc` keyed by address strings; the
`HashMap` is modelled as its entry list). -/
structure GenesisJson where
  alloc : List (String × AllocEntry)
  deriving DecidableEq

/-- Model of `parse_u256_hex` (src/verify.rs): strip an optional `0x`, return zero
for the empty string, and `unwrap_or(U256::ZERO)` around
`U256::from_str_radix(s, 16)` — total, zero on any decode failure
(including overflow). -/
def parse_u256_hex (s : String) : Nat :=
  let s := strip0x s
  if s.data.isEmpty then 0
  else
    match digitsVal hexDigitVal 16 s.data with
    | some n => if n < 2 ^ 256 then n else 0
    | none => 0

/-- alloy `Address::from_str`: an optional `0x` prefix then exactly 40 hex
digits (checksum casing is not validated by `from_str`). -/
def parse_address (s : String) : Option Addr :=
  let cs := (strip0x s).data
  if cs.length = 40 then digitsVal hexDigitVal 16 cs else none

/-- The `{:?}` rendering of an `Address`, modelled as `0x` plus 40 hex
digits.  (The Rust debug form is EIP-55 checksummed, i.e. the same string
up to letter case; the code lowercases before every comparison, and the
one place the casing is user-visible is inside a diagnostic message.) -/
def addrDebugStr (a : Addr) : String :=
  "0x" ++ hexEncode (natToBytesBE 20 a)

/-- The rehydration step of `verify_genesis_file` for one `alloc` entry:
parse the address (error on failure), map missing/unparsable balance via
`parse_u256_hex`/zero, decode the code hex (error on failure, after
stripping an optional `0x`), install the account, then write its storage
slots through `parse_u256_hex`. -/
def rehydrate_step (db : DB) (entry : String × AllocEntry) : Except String DB := do
  let addr ←
    match parse_address entry.1 with
    | some a => Except.ok a
    | none => Except.error ("Invalid address: " ++ entry.1)
  let balance := (entry.2.balance.map parse_u256_hex).getD 0
  let nonce := entry.2.nonce.getD 0
  let code ←
    match entry.2.code with
    | some c =>
      match hexDecode (strip0x c) with
      | some bytes => Except.ok bytes
      | none => Except.error ("Invalid bytecode hex")
    | none => Except.ok []
  let account_info : AccountInfo := { balance := balance, nonce := nonce, code := some code }
  let db := insert_account_info db addr account_info
  let db :=
    (entry.2.storage.getD []).foldl
      (fun acc kv => insert_account_storage acc addr (parse_u256_hex kv.1) (parse_u256_hex kv.2))
      db
  Except.ok db

/-- The rehydration loop of `verify_genesis_file` (lines 92-133). -/
def rehydrate_alloc (alloc : List (String × AllocEntry)) : Except String DB :=
  alloc.foldlM rehydrate_step []

/-- A decoded `ValidatorConsensusInfo` record (the expected result schema
of `getActiveValidators()`). -/
structure ValidatorConsensusInfo where
  validator : Addr
  consensusPubkey : Bytes
  consensusPop : Bytes
  votingPower : Nat
  validatorIndex : Nat
  networkAddresses : Bytes
  fullnodeAddresses : Bytes
  deriving DecidableEq

/-- The external alloy ABI for the `getActiveValidators()` query: the
encoded call data, and the return-data decoder (`abi_decode_returns`),
which fails with a debug-rendered error on a schema mismatch. -/
structure SolAbi where
  get_active_validators_data : Bytes
  decode_active_validators : Bytes → Except String (List ValidatorConsensusInfo)

structure ValidatorInfo where
  address : Addr
  voting_power : Nat
  validator_index : Nat
  has_network_addresses : Bool
  has_fullnode_addresses : Bool
  deriving DecidableEq

/-- Model of `VerifyResult` (src/verify.rs): the structured verification report. -/
structure VerifyResult where
  success : Bool
  validator_count : Nat
  validators : List ValidatorInfo
  errors : List String
  deriving DecidableEq

/-- Model of `process_execution_result` (src/verify.rs). -/
def process_execution_result (abi : SolAbi) (result : ExecutionResult) :
    Except String VerifyResult :=
  match result with
  | .Success _ output _ =>
    match abi.decode_active_validators output with
    | .ok validators =>
      Except.ok
        { success := true,
          validator_count := validators.length,
          validators := validators.map (fun v =>
            { address := v.validator,
              voting_power := v.votingPower,
              validator_index := v.validatorIndex,
              has_network_addresses := !v.networkAddresses.isEmpty,
              has_fullnode_addresses := !v.fullnodeAddresses.isEmpty }),
          errors := [] }
    | .error decode_err =>
      Except.ok
        { success := false, validator_count := 0, validators := [],
          errors :=
            ["ABI decode failed: " ++ decode_err,
             "This likely means the genesis.json was created with old contracts lacking networkAddresses/fullnodeAddresses fields"] }
  | .Revert _ output =>
    Except.ok
      { success := false, validator_count := 0, validators := [],
        errors := ["Call reverted: 0x" ++ hexEncode output] }
  | .Halt reason _ =>
    Except.ok
      { success := false, validator_count := 0, validators := [],
        errors := ["Call halted: " ++ reason] }

/-- The report returned when the expected contract address is missing. -/
def missing_vm_report : VerifyResult :=
  { success := false, validator_count := 0, validators := [],
    errors := ["ValidatorManagement contract not found at expected address: "
      ++ addrDebugStr VALIDATOR_MANAGER_ADDR] }

/-- Model of `verify_genesis_file` (src/verify.rs), after the file has been read
and JSON-parsed (file plumbing is external): rehydrate a fresh view from
the snapshot, fail with a structured report when the expected
ValidatorManagement address is absent from the alloc key set, otherwise
issue the single read-only `getActiveValidators()` query through the
execution engine and decode the result.  The source calls `prepare_env`
with no chain-id argument; the chain id is fixed to the tool's default
(1337) here and is never read by the query path.  `now` is the wall clock
at the moment of the run (see `prepare_env`). -/
def verify_genesis_file {δ : Type} (vm : VM δ) (abi : SolAbi) (now : Nat)
    (genesis : GenesisJson) : Except String VerifyResult := do
  let db ← rehydrate_alloc genesis.alloc
  let vm_addr := VALIDATOR_MANAGER_ADDR
  let vm_addr_str := strLower (addrDebugStr vm_addr)
  let has_vm := genesis.alloc.any (fun p => strLower p.1 == vm_addr_str)
  if has_vm then do
    let tx := new_system_call_txn vm_addr abi.get_active_validators_data
    let env := prepare_env 1337 now
    let r ←
      match execute_revm_sequential vm SpecId.LATEST env db [tx] none with
      | Except.ok r => Except.ok r
      | Except.error e => Except.error ("EVM execution failed: " ++ e)
    match r.1.head? with
    | some exec_result => process_execution_result abi exec_result
    | none => Except.error ("No execution result returned")
  else
    Except.ok missing_vm_report

/-- Two verification runs on the same snapshot file, each rehydrating its
own view (the model of invoking the `verify` subcommand twice), at the
same wall-clock timestamp. -/
def verify_twice {δ : Type} (vm : VM δ) (abi : SolAbi) (now : Nat)
    (genesis : GenesisJson) : Except String VerifyResult × Except String VerifyResult :=
  (verify_genesis_file vm abi now genesis, verify_genesis_file vm abi now genesis)

/-! ## Reference definitions and concrete inputs for the theorems -/

/-- Reference semantics written from the spec's words ("applying them one
at a time with a manual commit between each", section 8): run the batch as
singleton batches through the engine itself, threading the final world
state of each singleton run into the next. -/
def run_singletons {δ : Type} (vm : VM δ) (spec_id : SpecId) (env : Env) :
    DB → List TxEnv → Except String (List ExecutionResult × DB)
  | db, [] => Except.ok ([], db)
  | db, tx :: rest => do
    let r ← execute_revm_sequential vm spec_id env db [tx] none
    let tail ← run_singletons vm spec_id env r.2.2 rest
    Except.ok (r.1 ++ tail.1, tail.2)

/-- The total balance held by the registry contract accounts of a view. -/
def registry_balance_sum (db : DB) : Nat :=
  (CONTRACTS.map (fun p => ((mget db p.2).map (fun acct => acct.info.balance)).getD 0)).sum

/-- A filesystem on which every read succeeds with empty contents. -/
def all_empty_fs : Fs := fun _ => some ("")

/-- A filesystem on which the Genesis contract's bytecode file exists but
holds text that is not valid hex. -/
def bad_hex_fs : Fs := fun p => if p = "bc/Genesis.hex" then some ("zz") else some ("")

/-- A filesystem on which the DKG contract's bytecode file is missing. -/
def missing_file_fs : Fs := fun p => if p = "bc/DKG.hex" then none else some ("")

/-- A virtual machine whose single transaction succeeds and whose
consolidated delta touches the privileged funding account, overwrites the
Genesis contract, and creates one fresh account. -/
def ok_vm : VM Unit :=
  { transact := fun _ _ _ => Except.ok (ExecutionResult.Success 0 [] [], ()),
    commit := fun db _ => db,
    consolidate := fun _ _ =>
      [(SYSTEM_CALLER, { info := some AccountInfo.default, storage := [] }),
       (GENESIS_ADDR, { info := some { balance := 7, nonce := 3, code := none },
                        storage := [(1, 2)] }),
       (DEAD_ADDRESS, { info := some { balance := 1, nonce := 0, code := some [1, 2] },
                        storage := [] })] }

/-- A virtual machine whose single transaction reverts with the
caller-not-authorized selector and two bytes of diagnostic payload. -/
def revert_vm : VM Unit :=
  { transact := fun _ _ _ =>
      Except.ok (ExecutionResult.Revert 0 [0x49, 0xfd, 0x36, 0xf2, 0xde, 0xad], ()),
    commit := fun db _ => db,
    consolidate := fun _ _ => [] }

/-- A virtual machine whose outcome depends on the block timestamp of the
execution environment (as the real EVM's TIMESTAMP opcode allows). -/
def ts_vm : VM Unit :=
  { transact := fun env _ _ => Except.ok (ExecutionResult.Revert 0 [env.timestamp % 256], ()),
    commit := fun db _ => db,
    consolidate := fun _ _ => [] }

/-- A trivial external ABI encoder for the initialize payload. -/
def null_encoder : GenesisConfig → Bytes := fun _ => []

/-- An external query ABI whose decoder always reports a schema mismatch. -/
def null_abi : SolAbi :=
  { get_active_validators_data := [],
    decode_active_validators := fun _ => Except.error ("schema mismatch") }

def one_validator_config : GenesisConfig :=
  { chain_id := 1, validators := [{ stake_amount := "5" }] }

def no_validator_config : GenesisConfig :=
  { chain_id := 1, validators := [] }

/-- A complete generation run on concrete inputs (used to witness the
theorems about successful runs). -/
def gen_run_ok : Except String ((DB × Bundle) × GenArtifacts) :=
  genesis_generate ok_vm all_empty_fs null_encoder 0 ("bc") one_validator_config

def empty_artifacts : (DB × Bundle) × GenArtifacts :=
  (([], []), { bundle_state := [], genesis_accounts := [], genesis_contracts := [] })

def gen_out_ok : (DB × Bundle) × GenArtifacts :=
  match gen_run_ok with
  | Except.ok o => o
  | Except.error _ => empty_artifacts

/-- A concrete seeding run (used to witness the balance theorems). -/
def deploy_run : Except String DB := deploy_bsc_style all_empty_fs ("bc") 5

def deploy_db : DB :=
  match deploy_run with
  | Except.ok db => db
  | Except.error _ => []

/-- A snapshot whose only entry is an unrelated address (the expected
ValidatorManagement address is absent). -/
def no_vm_genesis : GenesisJson :=
  { alloc := [("0x000000000000000000000000000000000000dead",
               { balance := some ("0x10"), nonce := some 1, code := none, storage := none })] }

/-- A snapshot containing exactly the expected ValidatorManagement
address. -/
def with_vm_genesis : GenesisJson :=
  { alloc := [("0x00000000000000000000000000000001625f2001",
               { balance := none, nonce := none, code := some ("0x60ff"), storage := none })] }

instance {ε α : Type} [DecidableEq ε] [DecidableEq α] : DecidableEq (Except ε α) := fun x y =>
  match x, y with
  | Except.ok a, Except.ok b =>
    if h : a = b then Decidable.isTrue (by rw [h])
    else Decidable.isFalse (fun hc => h (Except.ok.inj hc))
  | Except.error a, Except.error b =>
    if h : a = b then Decidable.isTrue (by rw [h])
    else Decidable.isFalse (fun hc => h (Except.error.inj hc))
  | Except.ok _, Except.error _ => Decidable.isFalse (fun hc => Except.noConfusion hc)
  | Except.error _, Except.ok _ => Decidable.isFalse (fun hc => Except.noConfusion hc)

/-- The view seeded from the filesystem whose Genesis bytecode file is not
valid hex. -/
def bad_hex_deploy_db : DB :=
  match deploy_bsc_style bad_hex_fs ("bc") 5 with
  | Except.ok db => db
  | Except.error _ => []

/-- Whether an optional code field would decode (the only alloc field,
besides the address, whose parse failure aborts rehydration). -/
def codeHexOk : Option String → Bool
  | some c => (hexDecode (strip0x c)).isSome
  | none => true

/-- The view rehydrated from the snapshot that lacks the expected
ValidatorManagement address. -/
def no_vm_db : DB :=
  match rehydrate_alloc no_vm_genesis.alloc with
  | Except.ok db => db
  | Except.error _ => []

/-- An alloc entry whose address and code are well-formed but whose
balance and storage strings are garbage hex. -/
def garbage_numeric_alloc : List (String × AllocEntry) :=
  [("0x000000000000000000000000000000000000dead",
    { balance := some ("zz!"), nonce := some 2, code := some ("0x60ff"),
      storage := some [("!!", "0xqq"), ("0x01", "zz")] })]

/-- An alloc entry whose address string is malformed (rehydration must
abort on it). -/
def bad_address_alloc : List (String × AllocEntry) :=
  [("zz",
    { balance := some ("nothex"), nonce := none, code := none,
      storage := some [("xx", "yy")] })]

/-! ## Lemmas about the association-list maps -/

@[simp] theorem mget_nil {V : Type} (a : Nat) : mget ([] : Smap V) a = none := rfl

@[simp] theorem mget_cons {V : Type} (k : Nat) (v : V) (t : Smap V) (a : Nat) :
    mget ((k, v) :: t) a = if k = a then some v else mget t a := rfl

@[simp] theorem mkeys_nil {V : Type} : mkeys ([] : Smap V) = [] := rfl

@[simp] theorem mkeys_cons {V : Type} (k : Nat) (v : V) (t : Smap V) :
    mkeys ((k, v) :: t) = k :: mkeys t := rfl

theorem mget_mset {V : Type} (m : Smap V) (k a : Nat) (v : V) :
    mget (mset m k v) a = if k = a then some v else mget m a := by
  induction m with
  | nil => simp [mset]
  | cons p t ih =>
    obtain ⟨k', v'⟩ := p
    by_cases hk : k' = k
    · subst hk
      by_cases ha : k' = a <;> simp [mset, ha]
    · by_cases ha : k' = a
      · subst ha
        have : ¬ k = k' := fun h => hk h.symm
        simp [mset, hk, this]
      · simp [mset, hk, ha, ih]

theorem mget_mset_self {V : Type} (m : Smap V) (k : Nat) (v : V) :
    mget (mset m k v) k = some v := by
  simp [mget_mset]

theorem mget_mset_ne {V : Type} (m : Smap V) (k a : Nat) (v : V) (h : k ≠ a) :
    mget (mset m k v) a = mget m a := by
  simp [mget_mset, h]

@[simp] theorem mdel_nil {V : Type} (k : Nat) : mdel ([] : Smap V) k = [] := rfl

theorem mdel_cons {V : Type} (k' : Nat) (v' : V) (t : Smap V) (k : Nat) :
    mdel ((k', v') :: t) k = if k' = k then mdel t k else (k', v') :: mdel t k := by
  by_cases h : k' = k <;> simp [mdel, List.filter_cons, h]

theorem mget_mdel_self {V : Type} (m : Smap V) (k : Nat) :
    mget (mdel m k) k = none := by
  induction m with
  | nil => rfl
  | cons p t ih =>
    obtain ⟨k', v'⟩ := p
    by_cases h : k' = k
    · simpa [mdel_cons, h] using ih
    · simpa [mdel_cons, h] using ih

theorem not_mem_mkeys_mdel {V : Type} (m : Smap V) (k : Nat) :
    k ∉ mkeys (mdel m k) := by
  induction m with
  | nil => simp
  | cons p t ih =>
    obtain ⟨k', v'⟩ := p
    by_cases h : k' = k
    · simpa [mdel_cons, h] using ih
    · intro hmem
      rcases by simpa [mdel_cons, h] using hmem with h1 | h2
      · exact h h1.symm
      · exact ih h2

theorem mkeys_mset_subset {V : Type} (m : Smap V) (k : Nat) (v : V) (a : Nat)
    (h : a ∈ mkeys (mset m k v)) : a = k ∨ a ∈ mkeys m := by
  induction m with
  | nil =>
    simp [mset] at h
    exact Or.inl h
  | cons p t ih =>
    obtain ⟨k', v'⟩ := p
    by_cases hk : k' = k
    · subst hk
      rcases by simpa [mset] using h with h1 | h2
      · exact Or.inl h1
      · exact Or.inr (List.mem_cons_of_mem _ h2)
    · rcases by simpa [mset, hk] using h with h1 | h2
      · exact Or.inr (by simp [h1])
      · rcases ih h2 with h3 | h4
        · exact Or.inl h3
        · exact Or.inr (List.mem_cons_of_mem _ h4)

theorem nodup_mset {V : Type} (m : Smap V) (k : Nat) (v : V)
    (h : NodupKeys m) : NodupKeys (mset m k v) := by
  induction m with
  | nil => simp [mset, NodupKeys]
  | cons p t ih =>
    obtain ⟨k', v'⟩ := p
    have hcons := by simpa [NodupKeys, List.nodup_cons] using h
    have ht : NodupKeys t := hcons.2
    have hk' : k' ∉ mkeys t := hcons.1
    by_cases hk : k' = k
    · subst hk
      exact by simpa [mset, NodupKeys, List.nodup_cons] using ⟨hk', ht⟩
    · have htail := ih ht
      have hnotin : k' ∉ mkeys (mset t k v) := by
        intro hmem
        rcases mkeys_mset_subset t k v k' hmem with h1 | h2
        · exact hk h1
        · exact hk' h2
      exact by simpa [mset, hk, NodupKeys, List.nodup_cons] using ⟨hnotin, htail⟩

/-! ## Helper lemmas -/

theorem exbind_ok {α β : Type} {x : Except String α} {f : α → Except String β} {b : β}
    (h : (x >>= f) = Except.ok b) : ∃ a, x = Except.ok a ∧ f a = Except.ok b := by
  cases x with
  | error e => simp [Bind.bind, Except.bind] at h
  | ok a => exact ⟨a, rfl, by simpa [Bind.bind, Except.bind] using h⟩

@[simp] theorem exbind_err {α β : Type} (e : String) (f : α → Except String β) :
    ((Except.error e : Except String α) >>= f) = Except.error e := rfl

@[simp] theorem exbind_ok_fun {α β : Type} (a : α) (f : α → Except String β) :
    ((Except.ok a : Except String α) >>= f) = f a := rfl

theorem str_append_assoc : ∀ a b c : String, (a ++ b) ++ c = a ++ (b ++ c)
  | ⟨ad⟩, ⟨bd⟩, ⟨cd⟩ => congrArg String.mk (List.append_assoc ad bd cd)

theorem mget_insert_account_info_ne (db : DB) (k a : Addr) (i : AccountInfo)
    (h : k ≠ a) : mget (insert_account_info db k i) a = mget db a := by
  unfold insert_account_info
  cases mget db k <;> simp [mget_mset_ne _ _ _ _ h]

theorem mget_insert_account_info_fresh (db : DB) (k : Addr) (i : AccountInfo)
    (h : mget db k = none) :
    mget (insert_account_info db k i) k = some { info := i, storage := [] } := by
  unfold insert_account_info
  rw [h]
  exact mget_mset_self _ _ _

theorem mem_mkeys_of_mem {V : Type} {m : Smap V} {a : Nat} {v : V}
    (h : (a, v) ∈ m) : a ∈ mkeys m :=
  List.mem_map_of_mem Prod.fst h

theorem mget_merge_step_ne (gs : Smap PlainAccount) (p : Nat × BundleAccount) (a : Nat)
    (h : p.1 ≠ a) : mget (merge_step gs p) a = mget gs a := by
  unfold merge_step
  cases p.2.info with
  | none => rfl
  | some info =>
    cases mget gs p.1 <;> simp [mget_mset_ne _ _ _ _ h]

theorem mget_merge_untouched (gs : Smap PlainAccount) (bundle : Bundle) (a : Nat)
    (h : a ∉ mkeys bundle) :
    mget (merge_bundle_into_genesis gs bundle) a = mget gs a := by
  induction bundle generalizing gs with
  | nil => rfl
  | cons p t ih =>
    obtain ⟨k, v⟩ := p
    have hne : k ≠ a := by
      intro he
      exact h (by simp [he])
    have hrest : a ∉ mkeys t := fun hm => h (List.mem_cons_of_mem _ hm)
    calc mget (merge_bundle_into_genesis gs ((k, v) :: t)) a
        = mget (merge_bundle_into_genesis (merge_step gs (k, v)) t) a := rfl
      _ = mget (merge_step gs (k, v)) a := ih (merge_step gs (k, v)) hrest
      _ = mget gs a := mget_merge_step_ne gs (k, v) a hne

/-! ## Claim theorems -/

/-- C3: the Sequential Execution Engine executes an ordered batch strictly
in list order, committing each transaction's writes into the working view
before the next transaction runs: for every virtual machine, environment,
view, and batch, its outcome list and final world state are exactly those
of applying the transactions one at a time (singleton batches) with a
manual commit between each — no internal reordering or batching. -/
theorem engine_executes_strictly_in_order {δ : Type} (vm : VM δ) (spec_id : SpecId)
    (env : Env) (db : DB) (txs : List TxEnv) :
    Except.map (fun r => (r.1, r.2.2))
        (execute_revm_sequential vm spec_id env db txs none)
      = run_singletons vm spec_id env db txs := by
  induction txs generalizing db with
  | nil => simp [execute_revm_sequential, run_txs, run_singletons, Except.map]
  | cons tx rest ih =>
    cases htr : vm.transact env db tx with
    | error e =>
      simp [execute_revm_sequential, run_txs, run_singletons, htr, Except.map]
    | ok step =>
      cases hrest : run_txs vm env (vm.commit db step.2) rest with
      | error e =>
        have := ih (vm.commit db step.2)
        simp [execute_revm_sequential, run_txs, htr, hrest, Except.map] at this ⊢
        simp [run_singletons, execute_revm_sequential, run_txs, htr, Except.map, ← this]
      | ok tail =>
        have := ih (vm.commit db step.2)
        simp [execute_revm_sequential, run_txs, htr, hrest, Except.map] at this ⊢
        simp [run_singletons, execute_revm_sequential, run_txs, htr, Except.map, ← this]

/-- C9: during the snapshot merge, a delta entry whose post-execution
account info is absent is skipped entirely: the merged snapshot at that
address equals the seeded state at that address (the seeded entry is kept
unchanged when one exists, and no entry is gained otherwise), even though
the address is listed as touched in the delta. -/
theorem merge_skips_destroyed_accounts (gs : Smap PlainAccount) (bundle : Bundle)
    (a : Nat) (acct : BundleAccount) (hnd : NodupKeys bundle)
    (hmem : (a, acct) ∈ bundle) (hnone : acct.info = none) :
    mget (merge_bundle_into_genesis gs bundle) a = mget gs a := by
  induction bundle generalizing gs with
  | nil => cases hmem
  | cons p t ih =>
    obtain ⟨k, v⟩ := p
    have hcons := by simpa [NodupKeys, List.nodup_cons] using hnd
    have hknot : k ∉ mkeys t := hcons.1
    have hndt : NodupKeys t := hcons.2
    rcases List.mem_cons.mp hmem with heq | hmt
    · have hak : a = k := congrArg Prod.fst heq
      have hvv : acct = v := congrArg Prod.snd heq
      subst hak
      have hstep : merge_step gs (a, v) = gs := by
        unfold merge_step
        rw [show v.info = none from hvv ▸ hnone]
      calc mget (merge_bundle_into_genesis gs ((a, v) :: t)) a
          = mget (merge_bundle_into_genesis (merge_step gs (a, v)) t) a := rfl
        _ = mget (merge_step gs (a, v)) a :=
            mget_merge_untouched _ t a hknot
        _ = mget gs a := by rw [hstep]
    · have hak : a ≠ k := by
        intro he
        exact hknot (he ▸ mem_mkeys_of_mem hmt)
      calc mget (merge_bundle_into_genesis gs ((k, v) :: t)) a
          = mget (merge_bundle_into_genesis (merge_step gs (k, v)) t) a := rfl
        _ = mget (merge_step gs (k, v)) a := ih _ hndt hmt
        _ = mget gs a := mget_merge_step_ne gs (k, v) a (fun he => hak he.symm)

/-- Witness for C9 at a concrete seeded state and delta. -/
theorem merge_skips_destroyed_accounts_witness :
    mget (merge_bundle_into_genesis
        [(5, { info := { balance := 1, nonce := 0, code := none }, storage := [] })]
        [(5, { info := none, storage := [(1, 1)] })]) 5
      = mget [(5, { info := { balance := 1, nonce := 0, code := none }, storage := [] })] 5 :=
  merge_skips_destroyed_accounts _ _ 5 { info := none, storage := [(1, 1)] }
    (by decide) (by decide) rfl

theorem derive_cons (k : Nat) (v : PlainAccount) (t : Smap PlainAccount) :
    derive_contracts_json ((k, v) :: t)
      = match codeOf v with
        | some c => (k, c) :: derive_contracts_json t
        | none => derive_contracts_json t := by
  cases hc : codeOf v <;> simp [derive_contracts_json, List.filterMap_cons, hc]

theorem mget_derive_not_mem (gs : Smap PlainAccount) (a : Nat) (h : a ∉ mkeys gs) :
    mget (derive_contracts_json gs) a = none := by
  induction gs with
  | nil => rfl
  | cons p t ih =>
    obtain ⟨k, v⟩ := p
    have hne : k ≠ a := fun he => h (by simp [he])
    have hrest : a ∉ mkeys t := fun hm => h (List.mem_cons_of_mem _ hm)
    cases hc : codeOf v with
    | some c => simp [derive_cons, hc, hne, ih hrest]
    | none => simp [derive_cons, hc, ih hrest]

theorem mget_derive (gs : Smap PlainAccount) (hnd : NodupKeys gs) (a : Nat) :
    mget (derive_contracts_json gs) a = Option.bind (mget gs a) codeOf := by
  induction gs with
  | nil => rfl
  | cons p t ih =>
    obtain ⟨k, v⟩ := p
    have hnd' : (k :: mkeys t).Nodup := hnd
    have hknot : k ∉ mkeys t := (List.nodup_cons.mp hnd').1
    have hndt : NodupKeys t := (List.nodup_cons.mp hnd').2
    cases hc : codeOf v with
    | some c =>
      by_cases hka : k = a
      · subst hka
        simp [derive_cons, hc]
      · simp [derive_cons, hc, hka, ih hndt]
    | none =>
      by_cases hka : k = a
      · subst hka
        simp [derive_cons, hc, mget_derive_not_mem t k hknot]
      · simp [derive_cons, hc, hka, ih hndt]

theorem mkeys_derive_sublist (gs : Smap PlainAccount) :
    (mkeys (derive_contracts_json gs)).Sublist (mkeys gs) := by
  induction gs with
  | nil => simp [derive_contracts_json]
  | cons p t ih =>
    obtain ⟨k, v⟩ := p
    cases hc : codeOf v with
    | some c => simpa [derive_cons, hc] using List.Sublist.cons₂ k ih
    | none => simpa [derive_cons, hc] using List.Sublist.cons k ih

theorem nodup_derive (gs : Smap PlainAccount) (hnd : NodupKeys gs) :
    NodupKeys (derive_contracts_json gs) :=
  List.Nodup.sublist (mkeys_derive_sublist gs) hnd

theorem nodup_foldlM {α : Type} (step : Smap PlainAccount → α → Except String (Smap PlainAccount))
    (hstep : ∀ gs x gs1, step gs x = Except.ok gs1 → NodupKeys gs → NodupKeys gs1) :
    ∀ (l : List α) (gs0 gs : Smap PlainAccount),
      l.foldlM step gs0 = Except.ok gs → NodupKeys gs0 → NodupKeys gs := by
  intro l
  induction l with
  | nil =>
    intro gs0 gs h h0
    have h' : (Except.ok gs0 : Except String (Smap PlainAccount)) = Except.ok gs := by
      simpa [List.foldlM, pure, Except.pure] using h
    cases h'
    exact h0
  | cons x t ih =>
    intro gs0 gs h h0
    obtain ⟨gs1, h1, h2⟩ := exbind_ok (by simpa [List.foldlM] using h)
    exact ih gs1 gs h2 (hstep gs0 x gs1 h1 h0)

theorem nodup_seed_step (fs : Fs) (dir : String) (gs : Smap PlainAccount)
    (e : String × Addr) (gs1 : Smap PlainAccount)
    (h : seed_step fs dir gs e = Except.ok gs1) (h0 : NodupKeys gs) : NodupKeys gs1 := by
  unfold seed_step at h
  obtain ⟨hex, h1, h2⟩ := exbind_ok h
  dsimp only at h2
  injection h2 with h2
  exact h2 ▸ nodup_mset _ _ _ h0

theorem nodup_seed (fs : Fs) (dir : String) (gs : Smap PlainAccount)
    (h : seed_genesis_state fs dir = Except.ok gs) : NodupKeys gs :=
  nodup_foldlM (seed_step fs dir) (nodup_seed_step fs dir) CONTRACTS [] gs h List.Pairwise.nil

theorem nodup_merge_step (gs : Smap PlainAccount) (p : Nat × BundleAccount)
    (h : NodupKeys gs) : NodupKeys (merge_step gs p) := by
  unfold merge_step
  cases p.2.info with
  | none => exact h
  | some info => cases mget gs p.1 <;> exact nodup_mset _ _ _ h

theorem nodup_merge (gs : Smap PlainAccount) (bundle : Bundle)
    (h : NodupKeys gs) : NodupKeys (merge_bundle_into_genesis gs bundle) := by
  induction bundle generalizing gs with
  | nil => exact h
  | cons p t ih => exact ih (merge_step gs p) (nodup_merge_step gs p h)

theorem genesis_generate_ok_inv {δ : Type} (vm : VM δ) (fs : Fs)
    (encoder : GenesisConfig → Bytes) (now : Nat) (dir : String) (config : GenesisConfig)
    (out : (DB × Bundle) × GenArtifacts)
    (h : genesis_generate vm fs encoder now dir config = Except.ok out) :
    ∃ S db txs r gs,
      calculate_total_stake config = Except.ok S ∧
      deploy_bsc_style fs dir S = Except.ok db ∧
      build_genesis_transactions encoder config = Except.ok txs ∧
      execute_revm_sequential vm SpecId.LATEST (prepare_env config.chain_id now) db txs none
        = Except.ok r ∧
      r.1.findIdx? (fun res => !res.is_success) = none ∧
      seed_genesis_state fs dir = Except.ok gs ∧
      out = ((db, r.2.1),
        { bundle_state := mdel r.2.1 SYSTEM_CALLER,
          genesis_accounts := merge_bundle_into_genesis gs (mdel r.2.1 SYSTEM_CALLER),
          genesis_contracts :=
            derive_contracts_json
              (merge_bundle_into_genesis gs (mdel r.2.1 SYSTEM_CALLER)) }) := by
  unfold genesis_generate at h
  obtain ⟨S, hS, h⟩ := exbind_ok h
  obtain ⟨db, hdb, h⟩ := exbind_ok h
  obtain ⟨txs, htxs, h⟩ := exbind_ok h
  obtain ⟨r, hr, h⟩ := exbind_ok h
  dsimp only at h
  cases hidx : r.1.findIdx? (fun res => !res.is_success) with
  | some i => rw [hidx] at h; simp at h
  | none =>
    rw [hidx] at h
    obtain ⟨gs, hgs, h⟩ := exbind_ok h
    refine ⟨S, db, txs, r, gs, hS, hdb, htxs, hr, hidx, hgs, ?_⟩
    simpa using h.symm

theorem read_ok_inv {fs : Fs} {path hex : String}
    (h : read_hex_from_file fs path = Except.ok hex) : fs path = some hex := by
  unfold read_hex_from_file at h
  cases hfs : fs path with
  | some s => rw [hfs] at h; injection h with h; exact h ▸ rfl
  | none => rw [hfs] at h; cases h

theorem seed_step_ok_inv {fs : Fs} {dir : String} {gs : Smap PlainAccount}
    {e : String × Addr} {gs1 : Smap PlainAccount}
    (h : seed_step fs dir gs e = Except.ok gs1) :
    ∃ hex, fs (dir ++ "/" ++ e.1 ++ ".hex") = some hex ∧
      gs1 = mset gs e.2
        { info := { balance := 0, nonce := 0,
                    code := some (extract_runtime_bytecode hex) },
          storage := [] } := by
  unfold seed_step at h
  obtain ⟨hex, h1, h2⟩ := exbind_ok h
  dsimp only at h2
  injection h2 with h2
  exact ⟨hex, read_ok_inv h1, h2.symm⟩

theorem seed_fold_keeps (fs : Fs) (dir : String) :
    ∀ (l : List (String × Addr)) (gs0 gs : Smap PlainAccount) (a : Nat),
      l.foldlM (seed_step fs dir) gs0 = Except.ok gs → a ∉ l.map Prod.snd →
      mget gs a = mget gs0 a := by
  intro l
  induction l with
  | nil =>
    intro gs0 gs a h _
    have h' : (Except.ok gs0 : Except String (Smap PlainAccount)) = Except.ok gs := by
      simpa [List.foldlM, pure, Except.pure] using h
    cases h'
    rfl
  | cons e t ih =>
    intro gs0 gs a h hnot
    obtain ⟨gs1, h1, h2⟩ := exbind_ok (by simpa [List.foldlM] using h)
    obtain ⟨hex, _, hset⟩ := seed_step_ok_inv h1
    have hne : e.2 ≠ a := fun he => hnot (by simp [he])
    have hrest : a ∉ t.map Prod.snd := fun hm => hnot (List.mem_cons_of_mem _ hm)
    calc mget gs a = mget gs1 a := ih gs1 gs a h2 hrest
      _ = mget gs0 a := by rw [hset]; exact mget_mset_ne _ _ _ _ hne

/-- C5: merging the state delta into the seeded snapshot and then deriving
the bytecode-only map reproduces exactly the code blobs present in the
merged snapshot: at every address the derived map holds precisely the
code of the snapshot entry there (no code lost), and the derived map binds
each address at most once (no code duplicated). -/
theorem bytecode_map_roundtrip {δ : Type} (vm : VM δ) (fs : Fs)
    (encoder : GenesisConfig → Bytes) (now : Nat) (dir : String) (config : GenesisConfig)
    (out : (DB × Bundle) × GenArtifacts)
    (h : genesis_generate vm fs encoder now dir config = Except.ok out) :
    (∀ a, mget out.2.genesis_contracts a = Option.bind (mget out.2.genesis_accounts a) codeOf)
      ∧ NodupKeys out.2.genesis_contracts := by
  obtain ⟨S, db, txs, r, gs, hS, hdb, htxs, hr, hidx, hgs, hout⟩ :=
    genesis_generate_ok_inv vm fs encoder now dir config out h
  subst hout
  have hnd : NodupKeys (merge_bundle_into_genesis gs (mdel r.2.1 SYSTEM_CALLER)) :=
    nodup_merge _ _ (nodup_seed fs dir gs hgs)
  exact ⟨fun a => mget_derive _ hnd a, nodup_derive _ hnd⟩

/-- Witness for C5 on a concrete successful generation run. -/
theorem bytecode_map_roundtrip_witness :
    mget gen_out_ok.2.genesis_contracts GENESIS_ADDR
      = Option.bind (mget gen_out_ok.2.genesis_accounts GENESIS_ADDR) codeOf :=
  (bytecode_map_roundtrip ok_vm all_empty_fs null_encoder 0 ("bc") one_validator_config
    gen_out_ok rfl).1 GENESIS_ADDR

/-- C2: whether or not the privileged funding account (the system caller)
was touched by the initialize transaction, it is absent from every
successful run's outputs: the merged snapshot has no entry for it, the
persisted state delta was stripped of it before merging, and it is not in
the seeded contract registry. -/
theorem system_caller_excluded {δ : Type} (vm : VM δ) (fs : Fs)
    (encoder : GenesisConfig → Bytes) (now : Nat) (dir : String) (config : GenesisConfig)
    (out : (DB × Bundle) × GenArtifacts)
    (h : genesis_generate vm fs encoder now dir config = Except.ok out) :
    mget out.2.genesis_accounts SYSTEM_CALLER = none
      ∧ mget out.2.bundle_state SYSTEM_CALLER = none
      ∧ ∀ p ∈ CONTRACTS, p.2 ≠ SYSTEM_CALLER := by
  obtain ⟨S, db, txs, r, gs, hS, hdb, htxs, hr, hidx, hgs, hout⟩ :=
    genesis_generate_ok_inv vm fs encoder now dir config out h
  subst hout
  refine ⟨?_, mget_mdel_self _ _, by decide⟩
  have hmerge := mget_merge_untouched gs (mdel r.2.1 SYSTEM_CALLER) SYSTEM_CALLER
    (not_mem_mkeys_mdel _ _)
  have hseed : mget gs SYSTEM_CALLER = none := by
    have := seed_fold_keeps fs dir CONTRACTS [] gs SYSTEM_CALLER hgs (by decide)
    simpa using this
  simpa [hseed] using hmerge

/-- Witness for C2 on a concrete successful generation run whose delta
touches the privileged funding account. -/
theorem system_caller_excluded_witness :
    mget gen_out_ok.2.genesis_accounts SYSTEM_CALLER = none :=
  (system_caller_excluded ok_vm all_empty_fs null_encoder 0 ("bc") one_validator_config
    gen_out_ok rfl).1

theorem deploy_step_ok_inv {fs : Fs} {dir : String} {S : Nat} {db : DB}
    {e : String × Addr} {db1 : DB}
    (h : deploy_step fs dir S db e = Except.ok db1) :
    ∃ hex, fs (dir ++ "/" ++ e.1 ++ ".hex") = some hex ∧
      db1 = insert_account_info db e.2
        { balance := if e.1 = "Genesis" then S + 1000000 * 10 ^ 18 else 0,
          nonce := 0, code := some (extract_runtime_bytecode hex) } := by
  unfold deploy_step at h
  obtain ⟨hex, h1, h2⟩ := exbind_ok h
  dsimp only at h2
  injection h2 with h2
  exact ⟨hex, read_ok_inv h1, h2.symm⟩

theorem deploy_fold_keeps (fs : Fs) (dir : String) (S : Nat) :
    ∀ (l : List (String × Addr)) (db0 db : DB) (a : Nat),
      l.foldlM (deploy_step fs dir S) db0 = Except.ok db → a ∉ l.map Prod.snd →
      mget db a = mget db0 a := by
  intro l
  induction l with
  | nil =>
    intro db0 db a h _
    have h' : (Except.ok db0 : Except String DB) = Except.ok db := by
      simpa [List.foldlM, pure, Except.pure] using h
    cases h'
    rfl
  | cons e t ih =>
    intro db0 db a h hnot
    obtain ⟨db1, h1, h2⟩ := exbind_ok (by simpa [List.foldlM] using h)
    obtain ⟨hex, _, hset⟩ := deploy_step_ok_inv h1
    have hne : e.2 ≠ a := fun he => hnot (by simp [he])
    have hrest : a ∉ t.map Prod.snd := fun hm => hnot (List.mem_cons_of_mem _ hm)
    calc mget db a = mget db1 a := ih db1 db a h2 hrest
      _ = mget db0 a := by rw [hset]; exact mget_insert_account_info_ne _ _ _ _ hne

theorem deploy_fold_sets (fs : Fs) (dir : String) (S : Nat) :
    ∀ (l : List (String × Addr)) (db0 db : DB) (name : String) (a : Addr),
      l.foldlM (deploy_step fs dir S) db0 = Except.ok db →
      (l.map Prod.snd).Nodup → (name, a) ∈ l → mget db0 a = none →
      ∃ c, mget db a
        = some { info := { balance := if name = "Genesis" then S + 1000000 * 10 ^ 18 else 0,
                           nonce := 0, code := some c },
                 storage := [] } := by
  intro l
  induction l with
  | nil => intro _ _ _ _ _ _ hmem _; cases hmem
  | cons e t ih =>
    intro db0 db name a h hnd hmem h0
    obtain ⟨db1, h1, h2⟩ := exbind_ok (by simpa [List.foldlM] using h)
    obtain ⟨hex, _, hset⟩ := deploy_step_ok_inv h1
    have hnd2 : (e.2 :: t.map Prod.snd).Nodup := by rw [List.map_cons] at hnd; exact hnd
    have hnd' := List.nodup_cons.mp hnd2
    rcases List.mem_cons.mp hmem with heq | hmt
    · have hna : name = e.1 := congrArg Prod.fst heq
      have haa : a = e.2 := congrArg Prod.snd heq
      refine ⟨extract_runtime_bytecode hex, ?_⟩
      have hfresh : mget db1 a
          = some { info := { balance := if e.1 = "Genesis" then S + 1000000 * 10 ^ 18 else 0,
                             nonce := 0, code := some (extract_runtime_bytecode hex) },
                   storage := [] } := by
        rw [hset, haa]
        exact mget_insert_account_info_fresh _ _ _ (haa ▸ h0)
      rw [deploy_fold_keeps fs dir S t db1 db a h2 (haa ▸ hnd'.1), hfresh, hna]
    · have hea : e.2 ≠ a := by
        intro he
        exact hnd'.1 (he ▸ List.mem_map_of_mem Prod.snd hmt)
      have h0' : mget db1 a = none := by
        rw [hset, mget_insert_account_info_ne _ _ _ _ hea]
        exact h0
      exact ih db1 db name a h2 hnd'.2 hmt h0'

theorem contracts_ne_system_caller : ∀ p ∈ CONTRACTS, p.2 ≠ SYSTEM_CALLER := by decide

theorem contracts_genesis_sum (S B : Nat) :
    (CONTRACTS.map (fun p => if p.1 = "Genesis" then S + B else 0)).sum = S + B := by
  simp [CONTRACTS]

/-- C7: after seeding with aggregate stake `S`, the privileged funding
account has nonce 1 and balance `S` plus its fixed buffer
(10,000,000 * 10^18); the Genesis contract holds `S` plus the smaller
buffer (1,000,000 * 10^18); every other registry contract has zero
balance; and the sum of balances over all registry contract accounts is
`S` plus the designated buffer. -/
theorem seeding_balances (fs : Fs) (dir : String) (S : Nat) (db : DB)
    (h : deploy_bsc_style fs dir S = Except.ok db) :
    mget db SYSTEM_CALLER
        = some { info := { balance := S + 10000000 * 10 ^ 18, nonce := 1, code := none },
                 storage := [] }
      ∧ (∃ c, mget db GENESIS_ADDR
          = some { info := { balance := S + 1000000 * 10 ^ 18, nonce := 0, code := some c },
                   storage := [] })
      ∧ (∀ p ∈ CONTRACTS, p.1 ≠ "Genesis" →
          ∃ c, mget db p.2
            = some { info := { balance := 0, nonce := 0, code := some c }, storage := [] })
      ∧ registry_balance_sum db = S + 1000000 * 10 ^ 18 := by
  unfold deploy_bsc_style at h
  dsimp only at h
  have hsc : mget db SYSTEM_CALLER
      = some { info := { balance := S + 10000000 * 10 ^ 18, nonce := 1, code := none },
               storage := [] } := by
    rw [deploy_fold_keeps fs dir S CONTRACTS _ db SYSTEM_CALLER h (by decide)]
    simp [insert_account_info, mget_mset_self]
  have hsets : ∀ name a, (name, a) ∈ CONTRACTS →
      ∃ c, mget db a
        = some { info := { balance := if name = "Genesis" then S + 1000000 * 10 ^ 18 else 0,
                           nonce := 0, code := some c },
                 storage := [] } := by
    intro name a hmem
    refine deploy_fold_sets fs dir S CONTRACTS _ db name a h (by decide) hmem ?_
    have hne : SYSTEM_CALLER ≠ a := by
      intro he
      exact contracts_ne_system_caller (name, a) hmem he.symm
    simp [insert_account_info, mget_mset, hne]
  refine ⟨hsc, ?_, ?_, ?_⟩
  · obtain ⟨c, hc⟩ := hsets ("Genesis") GENESIS_ADDR (by decide)
    exact ⟨c, by simpa using hc⟩
  · intro p hp hne
    obtain ⟨c, hc⟩ := hsets p.1 p.2 (by simpa using hp)
    exact ⟨c, by simpa [hne] using hc⟩
  · have hcong : CONTRACTS.map
        (fun p => ((mget db p.2).map (fun acct => acct.info.balance)).getD 0)
        = CONTRACTS.map (fun p => if p.1 = "Genesis" then S + 1000000 * 10 ^ 18 else 0) := by
      refine List.map_congr_left ?_
      intro p hp
      obtain ⟨c, hc⟩ := hsets p.1 p.2 (by simpa using hp)
      simp [hc]
    rw [registry_balance_sum, hcong, contracts_genesis_sum]

/-- Witness for C7 on a concrete seeding run with aggregate stake 5. -/
theorem seeding_balances_witness :
    mget deploy_db SYSTEM_CALLER
      = some { info := { balance := 5 + 10000000 * 10 ^ 18, nonce := 1, code := none },
               storage := [] } :=
  (seeding_balances all_empty_fs ("bc") 5 deploy_db rfl).1

theorem deploy_fold_fails (fs : Fs) (dir : String) (S : Nat) :
    ∀ (l : List (String × Addr)) (db0 : DB),
      (∃ p ∈ l, fs (dir ++ "/" ++ p.1 ++ ".hex") = none) →
      (l.foldlM (deploy_step fs dir S) db0).isOk = false := by
  intro l
  induction l with
  | nil =>
    intro db0 hex
    obtain ⟨p, hp, _⟩ := hex
    cases hp
  | cons e t ih =>
    intro db0 hex
    cases hfe : fs (dir ++ "/" ++ e.1 ++ ".hex") with
    | none =>
      have hstep : deploy_step fs dir S db0 e = Except.error ("Failed to open "
          ++ (dir ++ "/" ++ e.1 ++ ".hex")) := by
        unfold deploy_step read_hex_from_file
        dsimp only
        rw [hfe]
        rfl
      simp [List.foldlM, hstep, Except.isOk, Except.toBool]
    | some c =>
      have hstep : deploy_step fs dir S db0 e = Except.ok (insert_account_info db0 e.2
          { balance := if e.1 = "Genesis" then S + 1000000 * 10 ^ 18 else 0,
            nonce := 0, code := some (extract_runtime_bytecode c) }) := by
        unfold deploy_step read_hex_from_file
        dsimp only
        rw [hfe]
        rfl
      obtain ⟨p, hp, hpn⟩ := hex
      rcases List.mem_cons.mp hp with heq | hmt
      · rw [heq] at hpn
        rw [hfe] at hpn
        cases hpn
      · simpa [List.foldlM, hstep] using ih _ ⟨p, hmt, hpn⟩

/-- C1 counterexample: with the Genesis contract's bytecode file present
but holding text that is not parsable as hex, generation does NOT abort —
the contents silently decode to the empty byte string and the run
completes, seeding the contract with empty bytecode. -/
theorem unparsable_hex_does_not_abort :
    hexDecode (strTrim ("zz")) = none
      ∧ (genesis_generate ok_vm bad_hex_fs null_encoder 0 ("bc") one_validator_config).isOk = true
      ∧ (deploy_bsc_style bad_hex_fs ("bc") 5).isOk = true
      ∧ mget bad_hex_deploy_db GENESIS_ADDR
          = some { info := { balance := 5 + 1000000 * 10 ^ 18, nonce := 0, code := some [] },
                   storage := [] } := by
  exact ⟨by decide, by decide, by decide, by decide⟩

/-- C1 (amended): generation fails fatally when a required bytecode source
file is missing; when the file exists but its contents are unparsable as
hex, the contents decode to the empty byte string (`unwrap_or_default`)
and generation continues with that contract seeded with empty bytecode. -/
theorem missing_source_aborts_unparsable_source_defaults :
    (∀ {δ : Type} (vm : VM δ) (fs : Fs) (encoder : GenesisConfig → Bytes) (now : Nat)
        (dir : String) (config : GenesisConfig) (name : String) (addr : Addr),
        (calculate_total_stake config).isOk = true →
        (name, addr) ∈ CONTRACTS →
        fs (dir ++ "/" ++ name ++ ".hex") = none →
        (genesis_generate vm fs encoder now dir config).isOk = false)
      ∧ (∀ s, hexDecode (strTrim s) = none → extract_runtime_bytecode s = []) := by
  constructor
  · intro δ vm fs encoder now dir config name addr hstake hmem hmiss
    cases hst : calculate_total_stake config with
    | error e => rw [hst] at hstake; cases hstake
    | ok S =>
      have hdep : (deploy_bsc_style fs dir S).isOk = false := by
        unfold deploy_bsc_style
        dsimp only
        exact deploy_fold_fails fs dir S CONTRACTS _ ⟨(name, addr), hmem, hmiss⟩
      cases hd : deploy_bsc_style fs dir S with
      | ok db => rw [hd] at hdep; cases hdep
      | error e =>
        unfold genesis_generate
        rw [hst]
        simp only [exbind_ok_fun]
        rw [hd]
        rfl
  · intro s h
    unfold extract_runtime_bytecode
    rw [h]
    rfl

/-- Witness for the amended C1 at a concrete missing file. -/
theorem missing_source_aborts_witness :
    (genesis_generate ok_vm missing_file_fs null_encoder 0 ("bc") no_validator_config).isOk
      = false :=
  missing_source_aborts_unparsable_source_defaults.1 ok_vm missing_file_fs null_encoder 0
    "bc" no_validator_config ("DKG") DKG_ADDR (by decide) (by decide) (by decide)

/-- C4: when the single initialize transaction's outcome is not a Success
— here a Revert whose first four output bytes are the
caller-not-authorized (OnlySystemCaller) selector — the generation run
aborts and returns no artifacts (every artifact write happens strictly
after the outcome check in the success branch), and the outcome
classifier renders that revert as the named OnlySystemCaller error with
the remaining output bytes preserved verbatim as hex diagnostic payload. -/
theorem nonsuccess_aborts_and_classifies {δ : Type} (vm : VM δ) (fs : Fs)
    (encoder : GenesisConfig → Bytes) (now : Nat) (dir : String) (config : GenesisConfig)
    (g : Nat) (out : Bytes) (d : δ)
    (hvm : ∀ env db tx, vm.transact env db tx
      = Except.ok (ExecutionResult.Revert g out, d))
    (hsel : out.take 4 = [0x49, 0xfd, 0x36, 0xf2]) (hlen : 4 < out.length) :
    (genesis_generate vm fs encoder now dir config).isOk = false
      ∧ analyze_txn_result (ExecutionResult.Revert g out)
          = "Revert with gas used: " ++ toString g
            ++ "\nFunction selector: 0x49fd36f2 (OnlySystemCaller)\nAdditional data: 0x"
            ++ hexEncode (out.drop 4) := by
  constructor
  · cases hst : calculate_total_stake config with
    | error e =>
      unfold genesis_generate
      rw [hst]
      rfl
    | ok S =>
      cases hd : deploy_bsc_style fs dir S with
      | error e =>
        unfold genesis_generate
        rw [hst]
        simp only [exbind_ok_fun]
        rw [hd]
        rfl
      | ok db =>
        have hb : build_genesis_transactions encoder config
            = Except.ok [new_system_call_txn_with_value GENESIS_ADDR (encoder config) S] := by
          unfold build_genesis_transactions call_genesis_init_txn
          rw [hst]
          rfl
        have hrun : run_txs vm (prepare_env config.chain_id now) db
            [new_system_call_txn_with_value GENESIS_ADDR (encoder config) S]
            = Except.ok ([ExecutionResult.Revert g out], [d],
                vm.commit db d) := by
          unfold run_txs
          rw [hvm]
          unfold run_txs
          rfl
        have hexec : execute_revm_sequential vm SpecId.LATEST (prepare_env config.chain_id now)
            db [new_system_call_txn_with_value GENESIS_ADDR (encoder config) S] none
            = Except.ok ([ExecutionResult.Revert g out],
                vm.consolidate db [d], vm.commit db d) := by
          unfold execute_revm_sequential
          dsimp only
          rw [hrun]
          rfl
        unfold genesis_generate
        rw [hst]
        simp only [exbind_ok_fun]
        rw [hd]
        simp only [exbind_ok_fun]
        rw [hb]
        simp only [exbind_ok_fun]
        rw [hexec]
        simp only [exbind_ok_fun]
        rfl
  · have h1 : hexEncode (out.take 4) = "49fd36f2" := by rw [hsel]; decide
    have h2 : selectorTag (out.take 4) = " (OnlySystemCaller)" := by rw [hsel]; decide
    unfold analyze_txn_result
    dsimp only
    rw [if_pos (Nat.le_of_lt hlen), if_pos hlen, h1, h2]
    simp only [str_append_assoc]
    refine congrArg (fun x => "Revert with gas used: " ++ (toString g ++ x)) ?_
    calc ("\nFunction selector: 0x")
          ++ ("49fd36f2" ++ (" (OnlySystemCaller)"
            ++ ("\nAdditional data: 0x" ++ hexEncode (out.drop 4))))
        = ("\nFunction selector: 0x"
            ++ ("49fd36f2" ++ (" (OnlySystemCaller)" ++ "\nAdditional data: 0x")))
          ++ hexEncode (out.drop 4) := by simp only [str_append_assoc]
      _ = "\nFunction selector: 0x49fd36f2 (OnlySystemCaller)\nAdditional data: 0x"
          ++ hexEncode (out.drop 4) := rfl

/-- Witness for C4 at a concrete reverting run. -/
theorem nonsuccess_aborts_witness :
    (genesis_generate revert_vm all_empty_fs null_encoder 0 ("bc") one_validator_config).isOk
      = false :=
  (nonsuccess_aborts_and_classifies revert_vm all_empty_fs null_encoder 0 ("bc")
    one_validator_config 0 [0x49, 0xfd, 0x36, 0xf2, 0xde, 0xad] ()
    (fun _ _ _ => rfl) (by decide) (by decide)).1

/-- C6: when the expected ValidatorManagement address is absent from the
loaded snapshot's account set, verification returns the structured report
with success = false, zero validators, and exactly one error string
describing the missing address — and the execution engine is never
invoked: the result is the same for every virtual machine, ABI, and
wall-clock value. -/
theorem missing_contract_structured_report {δ δ' : Type} (vm : VM δ) (abi : SolAbi)
    (now : Nat) (genesis : GenesisJson) (db : DB)
    (hre : rehydrate_alloc genesis.alloc = Except.ok db)
    (habs : genesis.alloc.any
      (fun p => strLower p.1 == strLower (addrDebugStr VALIDATOR_MANAGER_ADDR)) = false) :
    verify_genesis_file vm abi now genesis = Except.ok missing_vm_report
      ∧ missing_vm_report.success = false
      ∧ missing_vm_report.validator_count = 0
      ∧ missing_vm_report.errors.length = 1
      ∧ ∀ (vm' : VM δ') (abi' : SolAbi) (now' : Nat),
          verify_genesis_file vm' abi' now' genesis = verify_genesis_file vm abi now genesis := by
  have hmain : ∀ {δ2 : Type} (vm2 : VM δ2) (abi2 : SolAbi) (now2 : Nat),
      verify_genesis_file vm2 abi2 now2 genesis = Except.ok missing_vm_report := by
    intro δ2 vm2 abi2 now2
    unfold verify_genesis_file
    rw [hre]
    simp only [exbind_ok_fun]
    simp [habs]
  exact ⟨hmain vm abi now, rfl, rfl, rfl,
    fun vm' abi' now' => (hmain vm' abi' now').trans (hmain vm abi now).symm⟩

/-- Witness for C6 on a concrete snapshot without the expected address. -/
theorem missing_contract_structured_report_witness :
    verify_genesis_file ok_vm null_abi 0 no_vm_genesis = Except.ok missing_vm_report :=
  (@missing_contract_structured_report Unit Unit ok_vm null_abi 0 no_vm_genesis no_vm_db
    (by decide) (by decide)).1

/-- C8 counterexample: the verification report does NOT depend only on the
snapshot contents — the execution environment carries a wall-clock-derived
block timestamp (`prepare_env` reads the system time), and a query whose
outcome reads the timestamp (as the EVM TIMESTAMP opcode can) yields
different reports for two runs of the same snapshot at different times. -/
theorem verification_depends_on_wall_clock :
    verify_genesis_file ts_vm null_abi 0 with_vm_genesis
      ≠ verify_genesis_file ts_vm null_abi 1 with_vm_genesis := by decide

/-- C8 (amended): two verification runs over the same snapshot with the
same external virtual machine, ABI, and wall-clock timestamp yield
identical reports; each run rehydrates its working view afresh from the
snapshot, so no state escapes one run into the next. -/
theorem verify_twice_identical {δ : Type} (vm : VM δ) (abi : SolAbi) (now : Nat)
    (genesis : GenesisJson) :
    (verify_twice vm abi now genesis).1 = (verify_twice vm abi now genesis).2 := rfl

theorem rehydrate_step_ok (db : DB) (entry : String × AllocEntry)
    (ha : (parse_address entry.1).isSome = true)
    (hc : codeHexOk entry.2.code = true) : (rehydrate_step db entry).isOk = true := by
  unfold rehydrate_step
  cases hpa : parse_address entry.1 with
  | none => rw [hpa] at ha; cases ha
  | some a =>
    dsimp only
    cases hcode : entry.2.code with
    | none => simp [Except.isOk, Except.toBool]
    | some c =>
      rw [hcode] at hc
      simp only [codeHexOk] at hc
      cases hdec : hexDecode (strip0x c) with
      | none => simp [hdec] at hc
      | some bytes => simp [hdec, Except.isOk, Except.toBool]

theorem rehydrate_fold_ok :
    ∀ (l : List (String × AllocEntry)) (db0 : DB),
      (∀ p ∈ l, (parse_address p.1).isSome = true ∧ codeHexOk p.2.code = true) →
      (l.foldlM rehydrate_step db0).isOk = true := by
  intro l
  induction l with
  | nil => intro db0 _; rfl
  | cons e t ih =>
    intro db0 hall
    have he := hall e (List.mem_cons_self e t)
    have hok := rehydrate_step_ok db0 e he.1 he.2
    cases hs : rehydrate_step db0 e with
    | error msg => rw [hs] at hok; cases hok
    | ok db1 =>
      have ht : ∀ p ∈ t, (parse_address p.1).isSome = true ∧ codeHexOk p.2.code = true :=
        fun p hp => hall p (List.mem_cons_of_mem e hp)
      simpa [List.foldlM, hs] using ih db1 ht

/-- C10: `parse_u256_hex` is total and maps every malformed numeric hex
field to zero — the empty string, any string with a non-hex character,
and any overflowing value all parse to zero — so rehydration never fails
on a balance or storage field; rehydration aborts only on a malformed
address or code field, as the concrete malformed-address run shows. -/
theorem malformed_numeric_hex_reads_zero :
    (∀ s, digitsVal hexDigitVal 16 (strip0x s).data = none → parse_u256_hex s = 0)
      ∧ (∀ s n, digitsVal hexDigitVal 16 (strip0x s).data = some n → 2 ^ 256 ≤ n →
          parse_u256_hex s = 0)
      ∧ (∀ alloc, (∀ p ∈ alloc, (parse_address p.1).isSome = true
            ∧ codeHexOk p.2.code = true) → (rehydrate_alloc alloc).isOk = true)
      ∧ rehydrate_alloc bad_address_alloc = Except.error ("Invalid address: zz") := by
  refine ⟨?_, ?_, ?_, by decide⟩
  · intro s h
    unfold parse_u256_hex
    dsimp only
    by_cases he : (strip0x s).data.isEmpty
    · simp [he]
    · simp [he, h]
  · intro s n h hle
    unfold parse_u256_hex
    dsimp only
    have hne : ¬ (strip0x s).data.isEmpty = true := by
      intro he
      rw [show (strip0x s).data = [] from List.isEmpty_iff.mp he] at h
      simp [digitsVal] at h
    simp [hne, h]
    intro hlt
    exact absurd hlt (Nat.not_lt.mpr hle)
  · intro alloc hall
    exact rehydrate_fold_ok alloc [] hall

/-- Witness for C10: a snapshot entry with garbage balance and storage
hex rehydrates successfully. -/
theorem malformed_numeric_hex_reads_zero_witness :
    (rehydrate_alloc garbage_numeric_alloc).isOk = true :=
  malformed_numeric_hex_reads_zero.2.2.1 garbage_numeric_alloc (by decide)

end GenesisTool
